import Mathlib

/-!
Verification of the IasoScribe medical audio preprocessing pipeline
(`services/iaso-scribe/src/audio_preprocessor.py`) against its
natural-language specification.

Samples are embedded as exact rationals (the float source uses 64-bit
floats; all claims here concern structural and exact-arithmetic
properties). External numerical routines that the source delegates to
third-party libraries (librosa resampling, scipy Butterworth filters,
numpy FFT, the WebRTC VAD classifier) are taken as function parameters:
every theorem quantifies over them, so nothing is assumed about their
values beyond what the claim needs.
-/

set_option maxHeartbeats 1000000

namespace IasoScribe

/-! ### Basic list helpers mirroring numpy operations -/

/-- Mean of a list of rationals, `np.mean`. Division by zero in `ℚ`
yields `0` for the empty list (numpy would yield NaN; the pipeline only
takes means of nonempty rows). -/
def meanQ (l : List ℚ) : ℚ := l.sum / l.length

/-- Mean of squares, the `np.mean(x**2)` inside the RMS computation. -/
def meanSq (l : List ℚ) : ℚ := (l.map (fun x => x * x)).sum / l.length

/-- Peak absolute amplitude, `np.max(np.abs(x))`, with `0` for the empty
buffer. -/
def maxAbs (l : List ℚ) : ℚ := l.foldr (fun x m => max |x| m) 0

/-- Python `range(start, stop, step)` for nonnegative bounds: the list
`start, start+step, ...` of elements below `stop`. Empty when
`stop ≤ start` (Nat subtraction saturates, matching Python's empty range
for a nonpositive span). -/
def pyRangeFrom (start stop step : ℕ) : List ℕ :=
  (List.range ((stop - start + step - 1) / step)).map (fun k => start + k * step)

/-- Python `range(0, stop, step)`. -/
def pyRange (stop step : ℕ) : List ℕ := pyRangeFrom 0 stop step

/-- The in-place slice addition `dst[i:i+len(seg)] += seg` of numpy,
as a pure function. Always returns a list of the same length as `dst`. -/
def addAt (dst : List ℚ) (i : ℕ) (seg : List ℚ) : List ℚ :=
  dst.take i ++ (List.zipWith (fun x y => x + y) ((dst.drop i).take seg.length) seg)
    ++ dst.drop (i + seg.length)

/-- The in-place slice update `dst[i:i+n] = f(dst[i:i+n])` of numpy, as a
pure function. Always returns a list of the same length as `dst`. -/
def mapSlice (dst : List ℚ) (i n : ℕ) (f : ℚ → ℚ) : List ℚ :=
  dst.take i ++ ((dst.drop i).take n).map f ++ dst.drop (i + n)

/-! ### ContentCache model of `AudioPreprocessor.process`

The cache-relevant skeleton of `process`: the cache key is
`md5(audio)[:8] + "_" + str(denoise) + "_" + str(normalize_audio) + "_" +
str(remove_silence) + "_" + str(enhance_speech)`; the existence check is
on `cache_dir/{key}.wav` while the output is written to
`cache_dir/processed_{key}.wav`. The per-sample stages run exactly on the
cache-miss path, which `stageRuns` counts. -/

/-- Python `str` of a boolean. -/
def pyBool : Bool → String
  | true => "True"
  | false => "False"

/-- Cache key built by `AudioPreprocessor._get_cache_key` from the audio
digest and the four processing flags. -/
def cache_key (digest : String) (denoise normalizeFlag removeSilence enhanceSpeech : Bool) :
    String :=
  digest ++ "_" ++ pyBool denoise ++ "_" ++ pyBool normalizeFlag ++ "_"
    ++ pyBool removeSilence ++ "_" ++ pyBool enhanceSpeech

/-- Filesystem-visible state of one `AudioPreprocessor`: the set of file
paths existing under the cache directory, plus a counter of how many
times the per-sample processing stages have executed. -/
structure CacheState where
  files : List String
  stageRuns : ℕ

/-- Cache behaviour of `AudioPreprocessor.process`: look up
`cache_dir/{key}.wav`; on a hit return that path untouched; on a miss run
the processing stages (counted) and write `cache_dir/processed_{key}.wav`. -/
def process_cache_step (cacheDir digest : String)
    (denoise normalizeFlag removeSilence enhanceSpeech : Bool)
    (st : CacheState) : String × CacheState :=
  let key := cache_key digest denoise normalizeFlag removeSilence enhanceSpeech
  let cachedPath := cacheDir ++ "/" ++ key ++ ".wav"
  if st.files.contains cachedPath then
    (cachedPath, st)
  else
    let outputPath := cacheDir ++ "/" ++ "processed_" ++ key ++ ".wav"
    (outputPath, { files := outputPath :: st.files, stageRuns := st.stageRuns + 1 })

/-! ### Extension validation of `AudioPreprocessor.download_audio` -/

/-- Error taxonomy the preprocessor can actually surface. The source
defines no UnsupportedFormatError anywhere. -/
inductive PreprocessError where
  | decodeError : PreprocessError
  | downloadError : PreprocessError
deriving DecidableEq

/-- Recognized container extensions of `download_audio`. -/
def valid_extensions : List String := ["wav", "mp3", "mp4", "m4a", "ogg", "flac", "webm"]

/-- ASCII lowercasing of one character, the per-character behaviour of
Python `str.lower` on ASCII input. -/
def lowerChar (c : Char) : Char :=
  if 65 ≤ c.toNat ∧ c.toNat ≤ 90 then Char.ofNat (c.toNat + 32) else c

/-- ASCII lowercasing of a string, Python `str.lower`. -/
def lowerStr (s : String) : String := String.mk (s.data.map lowerChar)

/-- Extension selection of `download_audio`: an extension whose lowercase
form is not recognized is silently replaced by the default "wav". -/
def select_download_ext (ext : String) : String :=
  if valid_extensions.contains (lowerStr ext) then ext else "wav"

/-- Outcome of the format-validation step of `download_audio`: the source
never raises on an unrecognized extension, so the result is always `ok`. -/
def download_ext_result (ext : String) : Except PreprocessError String :=
  Except.ok (select_download_ext ext)

/-! ### MedicalOptimizer compression, `AudioPreprocessor._apply_compression` -/

/-- Dynamic range compression: samples with `|x| > threshold` are mapped
to `threshold + (x - threshold) / ratio`, all others pass through
(the numpy mask is `np.abs(audio) > threshold`, strict). -/
def apply_compression (threshold ratio : ℚ) (a : List ℚ) : List ℚ :=
  a.map (fun x => if threshold < |x| then threshold + (x - threshold) / ratio else x)

/-! ### VoiceActivityFilter, `AudioPreprocessor._remove_silence`

The WebRTC VAD classifier is external (`webrtcvad.Vad.is_speech`); it is
taken as a function parameter from 16-bit PCM frames to Bool. -/

/-- Truncation of a rational toward zero, the rounding of numpy's
float-to-integer `astype` cast. -/
def truncQ (x : ℚ) : ℤ := if 0 ≤ x then ⌊x⌋ else -⌊-x⌋

/-- Wrapping of an integer into the int16 range `[-32768, 32767]`, the
overflow behaviour of `astype(np.int16)`. -/
def wrap16 (z : ℤ) : ℤ := (z + 32768) % 65536 - 32768

/-- Conversion of one float sample to the 16-bit PCM domain:
`(audio * 32767).astype(np.int16)` per sample. -/
def toInt16 (x : ℚ) : ℤ := wrap16 (truncQ (x * 32767))

/-- Zero padding before framing: `np.pad(audio_16bit, (0, num_padding))`
with `num_padding = frame_length - len(audio_16bit) % frame_length`. -/
def vadPad (fl : ℕ) (a16 : List ℤ) : List ℤ :=
  a16 ++ List.replicate (fl - a16.length % fl) 0

/-- Frames visited by the loop `for i in range(0, len(audio_padded),
frame_length): frame = audio_padded[i:i + frame_length]`. -/
def framesOf (fl : ℕ) (l : List ℤ) : List (List ℤ) :=
  (pyRange l.length fl).map (fun i => (l.drop i).take fl)

/-- Frames retained by `_remove_silence`: full-length frames (the
`len(frame) == frame_length` guard) that the VAD classifies as speech. -/
def vadVoiced (isSpeech : List ℤ → Bool) (fl : ℕ) (a16 : List ℤ) : List (List ℤ) :=
  ((framesOf fl (vadPad fl a16)).filter (fun f => f.length == fl)).filter isSpeech

/-- Silence removal, `AudioPreprocessor._remove_silence`: convert to
16-bit PCM, pad, frame at 20 ms (`frame_length = int(sr * 20 / 1000)`),
keep speech-classified frames; if none, return the original buffer,
otherwise concatenate the kept frames and convert back to floats. -/
def remove_silence (isSpeech : List ℤ → Bool) (sr : ℕ) (a : List ℚ) : List ℚ :=
  let fl := sr * 20 / 1000
  let voiced := vadVoiced isSpeech fl (a.map toInt16)
  if voiced.isEmpty then a
  else voiced.flatten.map (fun (z : ℤ) => (z : ℚ) / 32767)

/-- Every retained frame has the full frame length. -/
theorem vadVoiced_mem_length (isSpeech : List ℤ → Bool) (fl : ℕ) (a16 : List ℤ)
    (f : List ℤ) (hf : f ∈ vadVoiced isSpeech fl a16) : f.length = fl := by
  unfold vadVoiced at hf
  have h1 := List.mem_of_mem_filter hf
  have h2 := List.of_mem_filter h1
  simpa using h2

/-! ### NoiseReducer, `AudioPreprocessor._reduce_noise`

The per-window spectral processing (Hann taper, `np.fft.rfft`, spectral
subtraction against the noise profile, `np.fft.irfft`) and the noise
profile computation (`np.abs(np.fft.rfft(noise_sample))`) are numpy
externals involving irrational constants; they are taken as function
parameters `wt` (profile and window to denoised window) and `profileOf`.
The windowing, overlap-add and renormalization structure is embedded
exactly. Constants: `window_size = 2048`, `hop_length = 512`. -/

/-- Noise sample selection: the first `int(0.5 * sr)` samples when the
buffer is longer than that, otherwise the whole buffer. -/
def noiseSampleOf (sr : ℕ) (a : List ℚ) : List ℚ :=
  if sr / 2 < a.length then a.take (sr / 2) else a

/-- Overlap-add loop of `_reduce_noise`: starting from
`np.zeros_like(audio)`, for each `i in range(0, len(audio) - 2048, 512)`
add the processed window `wt(audio[i:i+2048])[:2048]` into the
accumulator at offset `i`. -/
def overlapAdd (wt : List ℚ → List ℚ) (a : List ℚ) : List ℚ :=
  (pyRange (a.length - 2048) 512).foldl
    (fun acc i => addAt acc i ((wt ((a.drop i).take 2048)).take 2048))
    (List.replicate a.length 0)

/-- Renormalization loop of `_reduce_noise`: for each
`i in range(512, len(denoised) - 2048, 512)` divide the slice
`denoised[i:i+512]` by the overlap factor 4. -/
def renormOverlap (d : List ℚ) : List ℚ :=
  (pyRangeFrom 512 (d.length - 2048) 512).foldl
    (fun acc i => mapSlice acc i 512 (fun x => x / 4)) d

/-- Spectral-subtraction noise reduction,
`AudioPreprocessor._reduce_noise`. -/
def reduce_noise (profileOf : List ℚ → List ℚ) (wt : List ℚ → List ℚ → List ℚ)
    (sr : ℕ) (a : List ℚ) : List ℚ :=
  renormOverlap (overlapAdd (wt (profileOf (noiseSampleOf sr a))) a)

/-- Slice addition preserves the destination length. -/
theorem addAt_length (dst : List ℚ) (i : ℕ) (seg : List ℚ) :
    (addAt dst i seg).length = dst.length := by
  unfold addAt
  rw [List.length_append, List.length_append, List.length_take, List.length_zipWith,
      List.length_take, List.length_drop, List.length_drop]
  omega

/-- Slice mapping preserves the destination length. -/
theorem mapSlice_length (dst : List ℚ) (i n : ℕ) (f : ℚ → ℚ) :
    (mapSlice dst i n f).length = dst.length := by
  unfold mapSlice
  rw [List.length_append, List.length_append, List.length_take, List.length_map,
      List.length_take, List.length_drop, List.length_drop]
  omega

/-- Folding a length-preserving update preserves length. -/
theorem foldl_length_inv {β : Type} (g : List ℚ → β → List ℚ)
    (hg : ∀ acc b, (g acc b).length = acc.length) :
    ∀ (l : List β) (init : List ℚ), (l.foldl g init).length = init.length := by
  intro l
  induction l with
  | nil => intro init; rfl
  | cons b t ih =>
    intro init
    rw [List.foldl_cons, ih, hg]

/-- Overlap-add output has the input buffer's length. -/
theorem overlapAdd_length (wt : List ℚ → List ℚ) (a : List ℚ) :
    (overlapAdd wt a).length = a.length := by
  unfold overlapAdd
  rw [foldl_length_inv _ (fun acc i => addAt_length acc i _) _ _, List.length_replicate]

/-- Renormalization preserves length. -/
theorem renormOverlap_length (d : List ℚ) :
    (renormOverlap d).length = d.length := by
  unfold renormOverlap
  exact foldl_length_inv _ (fun acc i => mapSlice_length acc i 512 _) _ _

/-! ### Resampler/Downmixer steps of `AudioPreprocessor.process`

A loaded numpy buffer is 1-D (mono) or 2-D; the code branches on
`len(audio.shape) > 1`. A 2-D buffer is embedded axis-0-major: the outer
list runs along axis 0 and each inner list along axis 1, so
`np.mean(audio, axis=1)` is the list of inner-list means, whatever the
axes hold. The two decoders of `_load_audio` produce opposite layouts:
the pydub fallback reshapes to (samples, channels), where an inner list
holds the channel values at one sample index, while the primary
`librosa.load(..., mono=False)` path returns multichannel audio as
(channels, samples), where an inner list is one channel's whole
time series. Resampling is the librosa external, taken as a parameter. -/

/-- Shape-tagged numpy buffer. -/
inductive NpBuffer where
  | one : List ℚ → NpBuffer
  | two : List (List ℚ) → NpBuffer

/-- Mean along axis 1: `np.mean(audio, axis=1)`. -/
def npMeanAxis1 (rows : List (List ℚ)) : List ℚ := rows.map meanQ

/-- Mono conversion step of `process`: a 2-D buffer is replaced by its
axis-1 means, a 1-D buffer is left untouched. -/
def to_mono : NpBuffer → List ℚ
  | NpBuffer.one a => a
  | NpBuffer.two rows => npMeanAxis1 rows

/-- Resampling step of `process`: when the rate differs from the 16000 Hz
target, resample (librosa external) and set the rate to the target;
otherwise leave buffer and rate untouched. -/
def resample_step (resample : List ℚ → ℕ → ℕ → List ℚ) (a : List ℚ) (sr : ℕ) :
    List ℚ × ℕ :=
  if sr ≠ 16000 then (resample a sr 16000, 16000) else (a, sr)

/-! ### SpeechEnhancer and Normalizer

The Butterworth band-pass designs applied by `scipy.signal.filtfilt` are
externals taken as parameters `bandpass` (5th order, 80 Hz to 8 kHz) and
`midband` (2nd order, 1 to 4 kHz); similarly `sqrtQ` stands for the real
square root inside the RMS computation, about which theorems assume only
what they need. -/

/-- Speech enhancement, `AudioPreprocessor._enhance_speech`: combine the
band-passed signal with the mid-band boost scaled by 0.3, then rescale by
`0.95 / max_val` when the peak exceeds 0.95. -/
def enhance_speech (bandpass midband : List ℚ → List ℚ) (a : List ℚ) : List ℚ :=
  let filtered := bandpass a
  let mid_boost := (midband a).map (fun x => x * (3/10))
  let enhanced := List.zipWith (fun x y => x + y) filtered mid_boost
  let max_val := maxAbs enhanced
  if 95/100 < max_val then enhanced.map (fun x => x * (95/100) / max_val) else enhanced

/-- Loudness normalization, `AudioPreprocessor._normalize_audio`: when
RMS is positive, scale by `min(0.1 / rms, 10.0)` and peak-limit at 0.95;
otherwise return the buffer untouched. -/
def normalize_audio_stage (sqrtQ : ℚ → ℚ) (a : List ℚ) : List ℚ :=
  let rms := sqrtQ (meanSq a)
  if 0 < rms then
    let scaling_factor := min (1/10 / rms) 10
    let normalized := a.map (fun x => x * scaling_factor)
    let peak := maxAbs normalized
    if 95/100 < peak then normalized.map (fun x => x * (95/100) / peak) else normalized
  else a

/-! ### Lemmas about the peak amplitude -/

theorem maxAbs_nil : maxAbs [] = 0 := rfl

theorem maxAbs_cons (x : ℚ) (t : List ℚ) : maxAbs (x :: t) = max |x| (maxAbs t) := rfl

theorem maxAbs_nonneg (l : List ℚ) : 0 ≤ maxAbs l := by
  induction l with
  | nil => exact le_refl 0
  | cons x t ih => exact le_trans ih (le_max_right _ _)

theorem maxAbs_map_mul (l : List ℚ) (c : ℚ) :
    maxAbs (l.map (fun x => x * c)) = maxAbs l * |c| := by
  induction l with
  | nil => rw [List.map_nil, maxAbs_nil, zero_mul]
  | cons x t ih =>
    rw [List.map_cons, maxAbs_cons, maxAbs_cons, ih, abs_mul,
      max_mul_of_nonneg _ _ (abs_nonneg c)]

/-- Rescaling by `0.95 / maxAbs` brings the peak to exactly 0.95. -/
theorem maxAbs_rescale (l : List ℚ) (h : 95/100 < maxAbs l) :
    maxAbs (l.map (fun x => x * (95/100) / maxAbs l)) = 95/100 := by
  have hpos : 0 < maxAbs l := lt_trans (by norm_num) h
  have hfun : (fun x : ℚ => x * (95/100) / maxAbs l)
      = (fun x : ℚ => x * ((95/100) / maxAbs l)) := by
    funext x
    rw [mul_div_assoc]
  rw [hfun, maxAbs_map_mul, abs_of_pos (div_pos (by norm_num) hpos), mul_comm]
  exact div_mul_cancel₀ _ (ne_of_gt hpos)

/-- The shared peak-limiting pattern of `_enhance_speech` and
`_normalize_audio` keeps the peak at or below 0.95. -/
theorem peakLimit_le (l : List ℚ) :
    maxAbs (if 95/100 < maxAbs l then l.map (fun x => x * (95/100) / maxAbs l) else l)
      ≤ 95/100 := by
  by_cases h : 95/100 < maxAbs l
  · rw [if_pos h, maxAbs_rescale l h]
  · rw [if_neg h]
    exact not_lt.mp h

theorem maxAbs_pos_exists (l : List ℚ) (h : 0 < maxAbs l) : ∃ x ∈ l, x ≠ 0 := by
  induction l with
  | nil => exact absurd h (lt_irrefl 0)
  | cons x t ih =>
    rw [maxAbs_cons] at h
    rcases lt_max_iff.mp h with h1 | h2
    · exact ⟨x, List.mem_cons_self x t, abs_pos.mp h1⟩
    · rcases ih h2 with ⟨y, hy, hy0⟩
      exact ⟨y, List.mem_cons_of_mem x hy, hy0⟩

/-- A buffer with a positive peak has positive mean square. -/
theorem meanSq_pos_of_maxAbs_pos (l : List ℚ) (h : 0 < maxAbs l) : 0 < meanSq l := by
  rcases maxAbs_pos_exists l h with ⟨x, hx, hx0⟩
  unfold meanSq
  apply div_pos
  · have hmem : x * x ∈ l.map (fun y => y * y) := List.mem_map_of_mem _ hx
    have hnn : ∀ y ∈ l.map (fun z => z * z), 0 ≤ y := by
      intro y hy
      rcases List.mem_map.mp hy with ⟨z, _, hz⟩
      rw [← hz]
      exact mul_self_nonneg z
    exact lt_of_lt_of_le (mul_self_pos.mpr hx0) (List.single_le_sum hnn _ hmem)
  · have hne : l ≠ [] := List.ne_nil_of_mem hx
    exact_mod_cast Nat.cast_pos.mpr (List.length_pos.mpr hne)

/-! ### Claim theorems: C1, C4, C9 -/

/-- C1: the claim says a second `process` call with the same audio and
flags is a cache hit, with the per-sample stages running only once and
both calls returning the same path. In the source the existence check is
on `{key}.wav` while the write is to `processed_{key}.wav`, so the second
call misses the cache and re-runs all stages (`stageRuns = 2`), although
both calls do return the same output path. This theorem evaluates the
model at a concrete failing input, demonstrating the divergence. -/
theorem c1_cache_miss_on_second_call :
    (process_cache_step "/tmp" "aabbccdd" true true false true
      ((process_cache_step "/tmp" "aabbccdd" true true false true
        { files := [], stageRuns := 0 }).2)).2.stageRuns = 2 ∧
    (process_cache_step "/tmp" "aabbccdd" true true false true
      ((process_cache_step "/tmp" "aabbccdd" true true false true
        { files := [], stageRuns := 0 }).2)).1 =
    (process_cache_step "/tmp" "aabbccdd" true true false true
      { files := [], stageRuns := 0 }).1 := by
  decide

/-- C4 counterexample: an input with unrecognized extension "txt" is not
rejected with any error; `download_audio` silently selects the default
extension "wav" and proceeds. -/
theorem c4_unsupported_not_rejected :
    download_ext_result "txt" = Except.ok "wav" ∧
    valid_extensions.contains "txt" = false :=
  ⟨rfl, by decide⟩

/-- C4 amended: for every extension whose lowercase form is outside the
recognized set, the validation step of `download_audio` raises nothing
and yields the default extension "wav" (decoding is then still
attempted downstream). -/
theorem c4_default_ext (ext : String)
    (h : valid_extensions.contains (lowerStr ext) = false) :
    download_ext_result ext = Except.ok "wav" := by
  unfold download_ext_result select_download_ext
  rw [h]
  rfl

/-- C4 witness: the amended theorem applied at the concrete extension
"txt". -/
theorem c4_default_ext_witness :
    valid_extensions.contains (lowerStr "txt") = false ∧
    download_ext_result "txt" = Except.ok "wav" :=
  ⟨by decide, c4_default_ext "txt" (by decide)⟩

/-- C9: in the MedicalOptimizer's compression step (threshold 0.3,
ratio 2.0), a sample with absolute value above 0.3 maps to
`0.3 + (x - 0.3) / 2`, and a sample with absolute value at most 0.3
passes through unchanged. -/
theorem c9_compression (a : List ℚ) (i : ℕ) (x : ℚ) (hx : a[i]? = some x) :
    ((3 : ℚ)/10 < |x| →
      (apply_compression (3/10) 2 a)[i]? = some (3/10 + (x - 3/10) / 2)) ∧
    (|x| ≤ (3 : ℚ)/10 →
      (apply_compression (3/10) 2 a)[i]? = some x) := by
  constructor
  · intro hgt
    simp [apply_compression, List.getElem?_map, hx, hgt]
  · intro hle
    simp [apply_compression, List.getElem?_map, hx, not_lt.mpr hle]

/-- C9 witness: the compression theorem applied at concrete samples
`1/2` (above threshold, compressed to `2/5`) and `1/5` (below threshold,
unchanged). -/
theorem c9_compression_witness :
    (apply_compression (3/10) 2 [(1 : ℚ)/2])[0]? = some (2/5) ∧
    (apply_compression (3/10) 2 [(1 : ℚ)/5])[0]? = some (1/5) := by
  constructor
  · have h := (c9_compression [(1 : ℚ)/2] 0 (1/2) rfl).1
      (by rw [abs_of_pos (by norm_num : (0 : ℚ) < 1/2)]; norm_num)
    rw [h]
    norm_num
  · exact (c9_compression [(1 : ℚ)/5] 0 (1/5) rfl).2
      (by rw [abs_of_pos (by norm_num : (0 : ℚ) < 1/5)]; norm_num)

/-- C5: for every classifier and every non-empty input buffer, if zero
frames of this buffer are classified as speech — the retained-frames
list `vadVoiced` is empty — then `_remove_silence` returns the original,
unfiltered buffer exactly; and in every case the result is non-empty. -/
theorem c5_vad_fallback (isSpeech : List ℤ → Bool) (a : List ℚ) (hne : a ≠ []) :
    (vadVoiced isSpeech 320 (a.map toInt16) = [] →
      remove_silence isSpeech 16000 a = a) ∧
    remove_silence isSpeech 16000 a ≠ [] := by
  constructor
  · intro hv
    simp [remove_silence, hv]
  · unfold remove_silence
    by_cases hv : (vadVoiced isSpeech (16000 * 20 / 1000) (a.map toInt16)).isEmpty
    · simpa [hv] using hne
    · rw [if_neg (by simp [hv])]
      intro hmap
      have hjoin : (vadVoiced isSpeech (16000 * 20 / 1000) (a.map toInt16)).flatten = [] :=
        List.map_eq_nil_iff.mp hmap
      have hvne : vadVoiced isSpeech (16000 * 20 / 1000) (a.map toInt16) ≠ [] := by
        intro h0
        apply hv
        rw [h0]
        rfl
      rcases List.exists_mem_of_ne_nil _ hvne with ⟨f, hf⟩
      have hlen := vadVoiced_mem_length isSpeech _ _ f hf
      have hfnil : f = [] := (List.flatten_eq_nil_iff.mp hjoin) f hf
      rw [hfnil] at hlen
      simp at hlen

/-- C5 witness: the fallback theorem applied to a classifier finding no
speech in the concrete buffer `[1/2]`, discharging the empty
retained-frames hypothesis there. -/
theorem c5_vad_fallback_witness :
    remove_silence (fun _ => false) 16000 [(1 : ℚ)/2] = [(1 : ℚ)/2] ∧
    remove_silence (fun _ => false) 16000 [(1 : ℚ)/2] ≠ [] := by
  have h := c5_vad_fallback (fun _ => false) [(1 : ℚ)/2] (by simp)
  refine ⟨h.1 ?_, h.2⟩
  exact List.filter_eq_nil_iff.mpr (fun f _ => by simp)

/-- C10: the VAD pre-classification padding appends exactly
`frame_length - len % frame_length` zero samples, which is never zero;
when the length is already an exact multiple of the 320-sample frame
length, one full all-zero frame is appended and is among the full-length
frames submitted to the classifier. -/
theorem c10_vad_padding (a16 : List ℤ) :
    (vadPad 320 a16).length = a16.length + (320 - a16.length % 320) ∧
    0 < 320 - a16.length % 320 ∧
    (a16.length % 320 = 0 →
      vadPad 320 a16 = a16 ++ List.replicate 320 0 ∧
      List.replicate 320 (0 : ℤ) ∈
        (framesOf 320 (vadPad 320 a16)).filter (fun f => f.length == 320)) := by
  refine ⟨by simp [vadPad], Nat.sub_pos_of_lt (Nat.mod_lt _ (by norm_num)), ?_⟩
  intro hmul
  have hpad : vadPad 320 a16 = a16 ++ List.replicate 320 0 := by
    unfold vadPad
    rw [hmul]
  refine ⟨hpad, ?_⟩
  rw [hpad]
  have hlen : (a16 ++ List.replicate 320 (0 : ℤ)).length = a16.length + 320 := by
    rw [List.length_append, List.length_replicate]
  apply List.mem_filter.mpr
  constructor
  · unfold framesOf pyRange pyRangeFrom
    apply List.mem_map.mpr
    refine ⟨a16.length, ?_, ?_⟩
    · apply List.mem_map.mpr
      refine ⟨a16.length / 320, ?_, ?_⟩
      · apply List.mem_range.mpr
        rw [hlen]
        omega
      · omega
    · rw [List.drop_left, List.take_replicate, Nat.min_self]
  · show ((List.replicate 320 (0 : ℤ)).length == 320) = true
    rw [List.length_replicate]
    rfl

/-- C10 witness: the padding theorem applied at the empty buffer, whose
length 0 is a multiple of 320, so a full extra zero frame is appended and
submitted. -/
theorem c10_vad_padding_witness :
    0 < 320 - ([] : List ℤ).length % 320 ∧
    (vadPad 320 ([] : List ℤ) = [] ++ List.replicate 320 0 ∧
      List.replicate 320 (0 : ℤ) ∈
        (framesOf 320 (vadPad 320 ([] : List ℤ))).filter (fun f => f.length == 320)) :=
  ⟨(c10_vad_padding []).2.1, (c10_vad_padding []).2.2 rfl⟩

/-- C2 counterexample: the claim says a buffer shorter than one analysis
window is returned unmodified, but `_reduce_noise` on the one-sample
buffer `[1/2]` produces `[0]`: the window loop runs zero times and the
output keeps its `np.zeros_like` initialization. Evaluated here with the
identity in place of the external spectral transform, which the empty
window loop never calls. -/
theorem c2_short_not_unmodified :
    reduce_noise (fun l => l) (fun _ w => w) 16000 [(1 : ℚ)/2] = [(0 : ℚ)] ∧
    reduce_noise (fun l => l) (fun _ w => w) 16000 [(1 : ℚ)/2] ≠ [(1 : ℚ)/2] := by
  have h : reduce_noise (fun l => l) (fun _ w => w) 16000 [(1 : ℚ)/2] = [(0 : ℚ)] := rfl
  refine ⟨h, ?_⟩
  rw [h]
  intro heq
  injection heq with h1 h2
  exact absurd h1 (by norm_num)

/-- C2 amended: for every buffer shorter than one analysis window (2048
samples), and for every noise profile and spectral transform,
`_reduce_noise` returns the all-zero buffer of the same length (the
original samples are not preserved unless they are already zero). -/
theorem c2_short_zeros (profileOf : List ℚ → List ℚ) (wt : List ℚ → List ℚ → List ℚ)
    (sr : ℕ) (a : List ℚ) (hshort : a.length < 2048) :
    reduce_noise profileOf wt sr a = List.replicate a.length 0 := by
  unfold reduce_noise overlapAdd renormOverlap
  have h1 : a.length - 2048 = 0 := Nat.sub_eq_zero_of_le (le_of_lt hshort)
  rw [h1]
  have h2 : pyRange 0 512 = [] := rfl
  rw [h2, List.foldl_nil, List.length_replicate, h1]
  have h3 : pyRangeFrom 512 0 512 = [] := rfl
  rw [h3, List.foldl_nil]

/-- C2 witness: the amended theorem applied at the one-sample buffer
`[1/2]` with identity externals. -/
theorem c2_short_zeros_witness :
    reduce_noise (fun l => l) (fun _ w => w) 16000 [(1 : ℚ)/2] = List.replicate 1 0 :=
  c2_short_zeros (fun l => l) (fun _ w => w) 16000 [(1 : ℚ)/2] (by decide)

/-- C6: for every buffer, every sample rate and every choice of the
external spectral routines, the NoiseReducer's output has exactly the
input buffer's length. (In this exact-rational embedding every output
sample is a well-defined rational: the only division outside the
parameterized FFT composite is by the constant overlap factor 4, so no
NaN or Inf can arise.) -/
theorem c6_noise_length (profileOf : List ℚ → List ℚ) (wt : List ℚ → List ℚ → List ℚ)
    (sr : ℕ) (a : List ℚ) :
    (reduce_noise profileOf wt sr a).length = a.length := by
  unfold reduce_noise
  rw [renormOverlap_length, overlapAdd_length]

/-- C3: evaluation of the downmix on the layout the primary librosa
decode path produces. A stereo recording of 3 samples arrives
channels-major as `[[1, 0, 0], [0, 0, 0]]`; `np.mean(audio, axis=1)`
averages each channel over time, returning the 2-sample buffer
`[1/3, 0]` — its length is the channel count, not the claimed per-channel
sample count 3, and its first value 1/3 is not the claimed arithmetic
mean `(1 + 0) / 2` across the channels at index 0. -/
theorem c3_librosa_downmix_bug :
    to_mono (NpBuffer.two [[(1 : ℚ), 0, 0], [0, 0, 0]]) = [1/3, 0] ∧
    (to_mono (NpBuffer.two [[(1 : ℚ), 0, 0], [0, 0, 0]])).length ≠ 3 ∧
    (1 : ℚ)/3 ≠ (1 + 0) / 2 :=
  ⟨by norm_num [to_mono, npMeanAxis1, meanQ], by decide, by norm_num⟩

/-- Downmix and resampling facts on the (samples, channels) layout of
the pydub fallback: there the axis-1 mean is the per-index channel mean
with output length equal to the sample count; the resampling step always
yields sample rate 16000; and on a mono buffer already at 16000 Hz both
steps are the identity. -/
theorem downmix_resample_samples_major (resample : List ℚ → ℕ → ℕ → List ℚ)
    (rows : List (List ℚ)) (a : List ℚ) (sr : ℕ) (i : ℕ) :
    (to_mono (NpBuffer.two rows)).length = rows.length ∧
    (to_mono (NpBuffer.two rows))[i]? = (rows[i]?).map (fun r => r.sum / (r.length : ℚ)) ∧
    (resample_step resample a sr).2 = 16000 ∧
    to_mono (NpBuffer.one a) = a ∧
    resample_step resample a 16000 = (a, 16000) := by
  refine ⟨?_, ?_, ?_, rfl, rfl⟩
  · rw [to_mono, npMeanAxis1, List.length_map]
  · rw [to_mono, npMeanAxis1, List.getElem?_map]
    congr 1
  · unfold resample_step
    by_cases h : sr = 16000
    · rw [if_neg (by rw [h]; exact fun hne => hne rfl)]
      exact h
    · rw [if_pos h]

/-- C7: for every square-root function positive on positive arguments,
all filter externals and all input buffers, the peak absolute amplitude
after the Normalizer is at most 0.95, and the peak absolute amplitude
after the SpeechEnhancer is at most 0.95. -/
theorem c7_peak_limits (sqrtQ : ℚ → ℚ) (hs : ∀ x, 0 < x → 0 < sqrtQ x)
    (bandpass midband : List ℚ → List ℚ) (a b : List ℚ) :
    maxAbs (normalize_audio_stage sqrtQ a) ≤ 95/100 ∧
    maxAbs (enhance_speech bandpass midband b) ≤ 95/100 := by
  constructor
  · simp only [normalize_audio_stage]
    by_cases hrms : 0 < sqrtQ (meanSq a)
    · rw [if_pos hrms]
      exact peakLimit_le _
    · rw [if_neg hrms]
      have h0 : ¬ (0 < maxAbs a) := fun hp => hrms (hs _ (meanSq_pos_of_maxAbs_pos a hp))
      exact le_trans (not_lt.mp h0) (by norm_num)
  · simp only [enhance_speech]
    exact peakLimit_le _

/-- C7 witness: the peak-limit theorem applied with the identity in place
of the square root and the filters, on the concrete buffer containing the
single sample 1. -/
theorem c7_peak_limits_witness :
    maxAbs (normalize_audio_stage (fun x => x) [(1 : ℚ)]) ≤ 95/100 ∧
    maxAbs (enhance_speech (fun l => l) (fun l => l) [(1 : ℚ)]) ≤ 95/100 :=
  c7_peak_limits (fun x => x) (fun _ hx => hx) (fun l => l) (fun l => l) [(1 : ℚ)] [(1 : ℚ)]

/-- C8: when the RMS is positive the Normalizer scales every sample by
`min(0.1 / rms, 10.0)` and then, exactly when the resulting peak
`maxAbs a * min(0.1 / rms, 10.0)` exceeds 0.95, rescales the whole buffer
by `0.95 / peak`; when the RMS is zero it returns the buffer unchanged. -/
theorem c8_normalizer_contract (sqrtQ : ℚ → ℚ) (a : List ℚ) :
    (0 < sqrtQ (meanSq a) →
      normalize_audio_stage sqrtQ a =
        if 95/100 < maxAbs a * min (1/10 / sqrtQ (meanSq a)) 10 then
          a.map (fun x => x * min (1/10 / sqrtQ (meanSq a)) 10 * (95/100)
            / (maxAbs a * min (1/10 / sqrtQ (meanSq a)) 10))
        else a.map (fun x => x * min (1/10 / sqrtQ (meanSq a)) 10)) ∧
    (sqrtQ (meanSq a) = 0 → normalize_audio_stage sqrtQ a = a) := by
  constructor
  · intro h
    simp only [normalize_audio_stage]
    rw [if_pos h]
    have hs0 : 0 < min (1/10 / sqrtQ (meanSq a)) 10 :=
      lt_min (div_pos (by norm_num) h) (by norm_num)
    have hpk : maxAbs (a.map (fun x => x * min (1/10 / sqrtQ (meanSq a)) 10))
        = maxAbs a * min (1/10 / sqrtQ (meanSq a)) 10 := by
      rw [maxAbs_map_mul, abs_of_pos hs0]
    rw [hpk]
    by_cases hcl : 95/100 < maxAbs a * min (1/10 / sqrtQ (meanSq a)) 10
    · rw [if_pos hcl, if_pos hcl, List.map_map]
      rfl
    · rw [if_neg hcl, if_neg hcl]
  · intro h0
    simp only [normalize_audio_stage]
    rw [if_neg (by rw [h0]; exact lt_irrefl 0)]

/-- C8 witness: the Normalizer contract applied at the silent buffer
`[0]` (RMS zero, returned unchanged) and at the buffer `[3/5]` (positive
RMS), with the identity in place of the square root. -/
theorem c8_normalizer_contract_witness :
    normalize_audio_stage (fun x => x) [(0 : ℚ)] = [(0 : ℚ)] ∧
    normalize_audio_stage (fun x => x) [(3 : ℚ)/5] =
      (if 95/100 < maxAbs [(3 : ℚ)/5] * min (1/10 / meanSq [(3 : ℚ)/5]) 10 then
        [(3 : ℚ)/5].map (fun x => x * min (1/10 / meanSq [(3 : ℚ)/5]) 10 * (95/100)
          / (maxAbs [(3 : ℚ)/5] * min (1/10 / meanSq [(3 : ℚ)/5]) 10))
      else [(3 : ℚ)/5].map (fun x => x * min (1/10 / meanSq [(3 : ℚ)/5]) 10)) := by
  constructor
  · exact (c8_normalizer_contract (fun x => x) [(0 : ℚ)]).2 (by norm_num [meanSq])
  · exact (c8_normalizer_contract (fun x => x) [(3 : ℚ)/5]).1 (by norm_num [meanSq])

end IasoScribe
